import Mathlib

/-!
Shallow embedding of the Telegram rating bot (src/rating_bot.py).

The bot stores one document per channel post in a MongoDB collection:
  { _id: message_id, chat_id, title: string, votes: { voter_id(string) -> {score: int, name: string} } }
We model the votes mapping as an association list keyed by the voter id
string, the collection as an association list keyed by the message id,
Python integers as Int, Python floats arising from integer sums and
divisions as exact rationals (every value reaching a rounding decision in
this program is a dyadic rational, hence exactly representable as a
double, so IEEE division returns it exactly), and Python string slicing
as code-point-wise List Char operations (Lean's String.data; Python's len
and slicing also count code points).
-/

namespace RatingBot

/-- One voter's entry in a post's votes mapping: {'score': int, 'name': str}. -/
structure Vote where
  score : Int
  name : String
deriving Repr, DecidableEq

/-- The votes mapping of one post: voter-id string to Vote record. -/
abbrev Votes := List (String × Vote)

/-- Reading votes[uid] (first matching key, as in a dict with unique keys). -/
def lookupVote (votes : Votes) (uid : String) : Option Vote :=
  (votes.find? (fun p => p.1 = uid)).map Prod.snd

/-- MongoDB update_one with set of the nested field votes.<uid> (line 266):
replaces the entry when the key exists, otherwise appends it. -/
def setVote (votes : Votes) (uid : String) (v : Vote) : Votes :=
  if votes.any (fun p => p.1 = uid) then
    votes.map (fun p => if p.1 = uid then (p.1, v) else p)
  else
    votes ++ [(uid, v)]

/-- scores = [v['score'] for v in votes.values()] (line 276). -/
def scoresOf (votes : Votes) : List Int :=
  votes.map (fun p => p.2.score)

/-- average_score = sum(scores) / total_votes if total_votes > 0 else 0 (line 278). -/
def averageScore (votes : Votes) : ℚ :=
  let scores := scoresOf votes
  if scores.length > 0 then (scores.sum : ℚ) / (scores.length : ℚ) else 0

/-- Python 3 round() on a real value: round half to even (banker's rounding).
The floats this program rounds are exact dyadic rationals, so rounding the
rational is rounding the float. -/
def pyRound (q : ℚ) : Int :=
  let f : Int := ⌊q⌋
  let frac : ℚ := q - (f : ℚ)
  if frac < 1/2 then f
  else if 1/2 < frac then f + 1
  else if f % 2 = 0 then f else f + 1

/-- filled_blocks = int(round(average_score)) (line 280). -/
def filledBlocks (votes : Votes) : Int :=
  pyRound (averageScore votes)

/-- Python "c" * n for a single character c (empty when n <= 0). -/
def strRepeat (c : Char) (n : Int) : String :=
  String.mk (List.replicate n.toNat c)

/-- progress_bar = "■" * filled_blocks + "□" * (10 - filled_blocks) (line 281). -/
def progressBar (filled : Int) : String :=
  strRepeat '■' filled ++ strRepeat '□' (10 - filled)

/-- Python format spec .1f applied to the (dyadic-exact) average: one decimal
digit, ties to even. Negative averages do not occur on reachable stores. -/
def formatAvg1 (q : ℚ) : String :=
  let t : Int := pyRound (10 * q)
  if t < 0 then
    "-" ++ toString ((-t).toNat / 10) ++ "." ++ toString ((-t).toNat % 10)
  else
    toString (t.toNat / 10) ++ "." ++ toString (t.toNat % 10)

/-- new_text built at lines 283-287 from the updated votes mapping. -/
def panelText (votes : Votes) : String :=
  "📊 **Rating: " ++ formatAvg1 (averageScore votes) ++ " / 10**\n"
    ++ progressBar (filledBlocks votes) ++ "\n"
    ++ "(" ++ toString (scoresOf votes).length ++ " votes)"

/-- user_name composition (line 262): first_name plus a space and last_name
when last_name is truthy (present and non-empty). -/
def userDisplayName (firstName : String) (lastName : Option String) : String :=
  match lastName with
  | some ln => if ln = "" then firstName else firstName ++ " " ++ ln
  | none => firstName

/-- One stored post document. The _id key lives in the store association
list; title is Optional because the on-the-fly document (line 210) omits it. -/
structure Post where
  chat_id : Int
  title : Option String
  votes : Votes
deriving Repr, DecidableEq

/-- The post_votes collection, keyed by message id. -/
abbrev Store := List (Int × Post)

/-- find_one({'_id': mid}). -/
def findPost (store : Store) (mid : Int) : Option Post :=
  (store.find? (fun p => p.1 = mid)).map Prod.snd

/-- The document inserted on the fly when a vote arrives for an unknown post
(line 210): {'_id': message_id, 'chat_id': chat_id, 'votes': {}} — no title. -/
def synthesizedPost (chatId : Int) : Post :=
  { chat_id := chatId, title := none, votes := [] }

/-- Lines 207-211: fetch the post document, inserting the on-the-fly
document first when it is absent. Returns the store after the step. -/
def fetchOrCreate (store : Store) (mid : Int) (chatId : Int) : Store :=
  match findPost store mid with
  | some _ => store
  | none => store ++ [(mid, synthesizedPost chatId)]

/-- update_one({'_id': mid}, {set votes.<uid>}) (lines 266-269): a targeted
nested-field update of the matching document; a no-op when no document
matches (the handler inserted one beforehand). -/
def setVoteInStore (store : Store) (mid : Int) (uid : String) (v : Vote) : Store :=
  store.map (fun p =>
    if p.1 = mid then (p.1, { p.2 with votes := setVote p.2.votes uid v }) else p)

/-- Effect of the rating path: the store after the update, the ephemeral
acknowledgement text, and the replace-text request (none when skipped). -/
structure VoteOutcome where
  store : Store
  ack : String
  editRequest : Option String
deriving Repr, DecidableEq

/-- PATH 2 of handle_vote (lines 261-297), after the fetch-or-create step:
record the vote via the targeted update, acknowledge, recompute the panel
text from the re-fetched document, and request an edit only when the new
text differs from the currently displayed text. -/
def handleVoteNumeric (store1 : Store) (mid : Int) (uid : String) (name : String)
    (score : Int) (displayed : String) : VoteOutcome :=
  let store2 := setVoteInStore store1 mid uid { score := score, name := name }
  let updatedVotes := ((findPost store2 mid).map Post.votes).getD []
  let newText := panelText updatedVotes
  { store := store2
    ack := "You rated this " ++ toString score ++ "/10"
    editRequest := if newText = displayed then none else some newText }

/-- Python string slicing s[:n]: the first n code points. -/
def pySlice (s : String) (n : Nat) : String :=
  String.mk (s.data.take n)

/-- member.status in ['creator', 'administrator'] with the whole lookup
wrapped in try/except that forces is_admin = False on any failure
(lines 219-225). The lookup result is passed in: ok with the status
string, or error when get_chat_member raised. -/
def resolveIsAdmin (lookup : Except Unit String) : Bool :=
  match lookup with
  | .error _ => false
  | .ok status => status = "creator" || status = "administrator"

/-- The alert-box truncation of lines 252-253: texts over 200 code points
are cut to their first 190 and get "..." appended. -/
def truncateAlert (text : String) : String :=
  if text.length > 200 then pySlice text 190 ++ "..." else text

/-- PATH 1 of handle_vote (lines 218-256): the text answered as an alert to
a "check_voters" click, given the resolved admin flag, the clicking user's
id string and the post's current votes mapping. -/
def checkVoters (isAdmin : Bool) (userId : String) (votes : Votes) : String :=
  let hasVoted := votes.any (fun p => p.1 = userId)
  if ¬isAdmin ∧ ¬hasVoted then
    "🔒 You must vote first to see who else voted!"
  else if votes.isEmpty then
    "No one has voted yet."
  else
    let voterLines := votes.map (fun p =>
      if isAdmin then "• " ++ p.2.name ++ ": " ++ toString p.2.score
      else "• " ++ p.2.name)
    let header :=
      if isAdmin then "👮 Admin View (" ++ toString voterLines.length ++ " votes):"
      else "👥 Voters (" ++ toString voterLines.length ++ "):"
    truncateAlert (header ++ "\n" ++ String.intercalate "\n" voterLines)

/-- The observable effect of one handle_vote invocation. -/
inductive Action where
  /-- query.answer(text, show_alert=True) on the check_voters path. -/
  | alert (text : String)
  /-- the rating path: acknowledgement plus optional edit request. -/
  | voted (ack : String) (editRequest : Option String)
  /-- int(query.data) raised ValueError (payload neither the sentinel nor
  an integer literal); the handler aborts after the fetch-or-create step. -/
  | error
deriving Repr, DecidableEq

/-- Digit-string accumulation as in CPython's int parser: none on any
non-digit code point or on an empty digit sequence. -/
def digitsToNat (l : List Char) : Option Nat :=
  match l with
  | [] => none
  | _ =>
    l.foldl
      (fun acc c =>
        match acc with
        | none => none
        | some n => if c.isDigit then some (n * 10 + (c.toNat - '0'.toNat)) else none)
      (some 0)

/-- Python int(s) on the payload strings (line 261): an optional minus sign
followed by decimal digits yields the integer; everything else raises
ValueError, modeled as none. -/
def pyInt (s : String) : Option Int :=
  match s.data with
  | '-' :: rest => (digitsToNat rest).map (fun n => -(n : Int))
  | l => (digitsToNat l).map (fun n => (n : Int))

/-- handle_vote (lines 195-297) with the database connected: fetch or
create the post document, then dispatch on the payload. Returns the store
left behind and the observable action. -/
def handleVote (store : Store) (mid : Int) (chatId : Int) (uid : String)
    (firstName : String) (lastName : Option String)
    (lookup : Except Unit String) (payload : String) (displayed : String) :
    Store × Action :=
  let store1 := fetchOrCreate store mid chatId
  let currentVotes := ((findPost store1 mid).map Post.votes).getD []
  if payload = "check_voters" then
    (store1, .alert (checkVoters (resolveIsAdmin lookup) uid currentVotes))
  else
    match pyInt payload with
    | none => (store1, .error)
    | some n =>
      let o := handleVoteNumeric store1 mid uid
        (userDisplayName firstName lastName) n displayed
      (o.store, .voted o.ack o.editRequest)

/-- Python truthiness chain a or b for optional strings: an absent or
empty string falls through. -/
def orStr (a : Option String) (b : String) : String :=
  match a with
  | some s => if s = "" then b else s
  | none => b

/-- post_text = message.text or message.caption or "Media Post" (line 167). -/
def postTextOf (text caption : Option String) : String :=
  orStr text (orStr caption "Media Post")

/-- short_title = post_text[:30] + "..." if len(post_text) > 30 else
post_text (line 169). -/
def shortTitle (pt : String) : String :=
  if pt.length > 30 then pySlice pt 30 ++ "..." else pt

/-- The title stored by add_rating_buttons (lines 165-177). -/
def deriveTitle (text caption : Option String) : String :=
  shortTitle (postTextOf text caption)

/-- The initial document inserted for a new channel post (lines 172-177). -/
def initialPost (chatId : Int) (text caption : Option String) : Post :=
  { chat_id := chatId, title := some (deriveTitle text caption), votes := [] }

/-- Consume pat from the front of l, returning the remainder on a match. -/
def takeMatch (pat l : List Char) : Option (List Char) :=
  match pat, l with
  | [], rest => some rest
  | _ :: _, [] => none
  | p :: ps, c :: cs => if p = c then takeMatch ps cs else none

/-- Left-to-right replacement of every non-overlapping occurrence of pat,
fueled by the input length (enough fuel for any nonempty pattern). -/
def replaceAllAux (pat repl : List Char) : Nat → List Char → List Char
  | 0, l => l
  | _ + 1, [] => []
  | fuel + 1, c :: cs =>
    match takeMatch pat (c :: cs) with
    | some rest => repl ++ replaceAllAux pat repl fuel rest
    | none => c :: replaceAllAux pat repl fuel cs

/-- Python str.replace(pat, repl) for the nonempty pattern "-100" used at
line 117: replaces every non-overlapping occurrence, scanning left to
right. -/
def pyReplace (s pat repl : String) : String :=
  String.mk (replaceAllAux pat.data repl.data s.data.length s.data)

/-- One entry of ranked_posts in cmd_top (lines 120-125). -/
structure RankedPost where
  avg : ℚ
  count : Nat
  title : String
  link : String
deriving Repr, DecidableEq

/-- The sort order of line 128: key (avg, count), reverse=True. An entry a
precedes b exactly when a's key (avg, count) is lexicographically at least
b's. -/
def rankGEP (a b : RankedPost) : Prop :=
  b.avg < a.avg ∨ (a.avg = b.avg ∧ b.count ≤ a.count)

instance : DecidableRel rankGEP := fun a b => by
  unfold rankGEP
  infer_instance

instance : IsTotal RankedPost rankGEP := by
  constructor
  intro a b
  unfold rankGEP
  rcases lt_trichotomy a.avg b.avg with h | h | h
  · exact Or.inr (Or.inl h)
  · rcases Nat.le_total b.count a.count with hc | hc
    · exact Or.inl (Or.inr ⟨h, hc⟩)
    · exact Or.inr (Or.inr ⟨h.symm, hc⟩)
  · exact Or.inl (Or.inl h)

instance : IsTrans RankedPost rankGEP := by
  constructor
  intro a b c hab hbc
  unfold rankGEP at hab hbc ⊢
  rcases hab with h1 | ⟨h1, h1c⟩ <;> rcases hbc with h2 | ⟨h2, h2c⟩
  · exact Or.inl (h2.trans h1)
  · exact Or.inl (h2 ▸ h1)
  · exact Or.inl (h1 ▸ h2)
  · exact Or.inr ⟨h1.trans h2, h2c.trans h1c⟩

/-- Lines 101-125: skip posts with empty votes, compute average, count,
title (defaulting to "Unknown Post") and the t.me link built by deleting
every occurrence of "-100" from the chat id string. -/
def rankedPosts (posts : Store) : List RankedPost :=
  (posts.filter (fun p => ¬p.2.votes.isEmpty)).map (fun p =>
    { avg := averageScore p.2.votes
      count := (scoresOf p.2.votes).length
      title := p.2.title.getD "Unknown Post"
      link := "https://t.me/c/" ++ pyReplace (toString p.2.chat_id) "-100" ""
        ++ "/" ++ toString p.1 })

/-- Result of the /top command body. -/
inductive TopResult where
  /-- the fixed reply when no post has votes (line 134). -/
  | noPosts (msg : String)
  /-- the ranked entries rendered into the leaderboard message. -/
  | top (entries : List RankedPost)
deriving Repr, DecidableEq

/-- cmd_top (lines 90-150) with the database connected: rank, stable-sort
descending by (avg, count) (Python's list.sort with reverse=True is a
stable sort under rankGEP; modeled by insertion sort, also stable), take
5, or the fixed message when empty. -/
def cmdTop (posts : Store) : TopResult :=
  let top5 := (List.insertionSort rankGEP (rankedPosts posts)).take 5
  if top5.isEmpty then .noPosts "No rated posts found yet!" else .top top5

/-- A sequence of record-vote updates (line 266) applied to one post's
votes mapping, in call order. -/
def applyCalls (init : Votes) (calls : List (String × Vote)) : Votes :=
  calls.foldl (fun vs c => setVote vs c.1 c.2) init

/-! ## Helper lemmas -/

theorem keys_setVote (votes : Votes) (uid : String) (v : Vote) :
    (setVote votes uid v).map Prod.fst
      = if votes.any (fun p => p.1 = uid) then votes.map Prod.fst
        else votes.map Prod.fst ++ [uid] := by
  unfold setVote
  split
  · rw [List.map_map]
    apply List.map_congr_left
    intro p _
    by_cases h : p.1 = uid <;> simp [h]
  · simp

theorem any_key_iff (votes : Votes) (uid : String) :
    votes.any (fun p => p.1 = uid) = true ↔ uid ∈ votes.map Prod.fst := by
  simp only [List.any_eq_true, decide_eq_true_eq, List.mem_map]

theorem mem_keys_setVote (votes : Votes) (uid : String) (v : Vote) (x : String) :
    x ∈ (setVote votes uid v).map Prod.fst ↔ x ∈ votes.map Prod.fst ∨ x = uid := by
  rw [keys_setVote]
  by_cases h : votes.any (fun p => p.1 = uid) = true
  · rw [if_pos h]
    constructor
    · exact Or.inl
    · rintro (hx | rfl)
      · exact hx
      · exact (any_key_iff votes x).mp h
  · rw [if_neg h]
    simp [List.mem_append]

theorem nodup_keys_setVote (votes : Votes) (uid : String) (v : Vote)
    (h : (votes.map Prod.fst).Nodup) :
    ((setVote votes uid v).map Prod.fst).Nodup := by
  rw [keys_setVote]
  by_cases hc : votes.any (fun p => p.1 = uid) = true
  · rw [if_pos hc]; exact h
  · rw [if_neg hc]
    have hnot : uid ∉ votes.map Prod.fst := fun hm => hc ((any_key_iff votes uid).mpr hm)
    simp [List.nodup_append, h, hnot]

theorem mem_keys_applyCalls (calls : List (String × Vote)) (init : Votes) (x : String) :
    x ∈ (applyCalls init calls).map Prod.fst
      ↔ x ∈ init.map Prod.fst ∨ x ∈ calls.map Prod.fst := by
  induction calls generalizing init with
  | nil => simp [applyCalls]
  | cons c cs ih =>
    have hstep : applyCalls init (c :: cs) = applyCalls (setVote init c.1 c.2) cs := rfl
    rw [hstep, ih, mem_keys_setVote]
    simp
    tauto

theorem nodup_keys_applyCalls (calls : List (String × Vote)) (init : Votes)
    (h : (init.map Prod.fst).Nodup) :
    ((applyCalls init calls).map Prod.fst).Nodup := by
  induction calls generalizing init with
  | nil => exact h
  | cons c cs ih =>
    have hstep : applyCalls init (c :: cs) = applyCalls (setVote init c.1 c.2) cs := rfl
    rw [hstep]
    exact ih _ (nodup_keys_setVote _ _ _ h)

theorem count_applyCalls (calls : List (String × Vote)) :
    (applyCalls [] calls).length = (calls.map Prod.fst).toFinset.card := by
  have hnd := nodup_keys_applyCalls calls [] (by simp)
  have hlen : (applyCalls [] calls).length
      = ((applyCalls [] calls).map Prod.fst).length := (List.length_map _ _).symm
  rw [hlen, ← List.toFinset_card_of_nodup hnd]
  congr 1
  ext x
  simp only [List.mem_toFinset]
  rw [mem_keys_applyCalls]
  simp

theorem lookupVote_setVote_self (votes : Votes) (uid : String) (v : Vote)
    (h : uid ∈ votes.map Prod.fst) :
    lookupVote (setVote votes uid v) uid = some v := by
  unfold lookupVote setVote
  rw [if_pos ((any_key_iff votes uid).mpr h)]
  rw [List.find?_map]
  have hcomp : ((fun p : String × Vote => decide (p.1 = uid))
        ∘ (fun p => if p.1 = uid then (p.1, v) else p))
      = fun p : String × Vote => decide (p.1 = uid) := by
    funext p
    by_cases hp : p.1 = uid <;> simp [hp]
  rw [hcomp]
  obtain ⟨p0, hf⟩ : ∃ p0, votes.find? (fun p => p.1 = uid) = some p0 := by
    have hs : (votes.find? (fun p => p.1 = uid)).isSome := by
      rw [List.find?_isSome]
      rcases List.mem_map.mp h with ⟨p, hp, hq⟩
      exact ⟨p, hp, decide_eq_true hq⟩
    exact Option.isSome_iff_exists.mp hs
  have hkey : p0.1 = uid := by
    have := List.find?_some hf
    simpa using this
  simp [hf, hkey]

theorem lookupVote_setVote_other (votes : Votes) (uid uid' : String) (v : Vote)
    (h : uid' ≠ uid) :
    lookupVote (setVote votes uid v) uid' = lookupVote votes uid' := by
  unfold lookupVote setVote
  by_cases hc : votes.any (fun p => p.1 = uid) = true
  · rw [if_pos hc, List.find?_map]
    have hcomp : ((fun p : String × Vote => decide (p.1 = uid'))
          ∘ (fun p => if p.1 = uid then (p.1, v) else p))
        = fun p : String × Vote => decide (p.1 = uid') := by
      funext p
      by_cases hp : p.1 = uid <;> simp [hp]
    rw [hcomp]
    cases hf : votes.find? (fun p => p.1 = uid') with
    | none => simp [hf]
    | some p0 =>
      have hkey : p0.1 = uid' := by
        have := List.find?_some hf
        simpa using this
      have hne : ¬(p0.1 = uid) := fun hh => h (hkey ▸ hh ▸ rfl)
      simp [hf, hne]
  · rw [if_neg hc, List.find?_append]
    have hnone : List.find? (fun p => p.1 = uid') [(uid, v)] = none := by
      have hne : ¬(uid = uid') := fun hh => h hh.symm
      simp [List.find?_cons, hne]
    rw [hnone]
    simp

theorem pyRound_eq_ite (q : ℚ) :
    pyRound q
      = if q - (⌊q⌋ : ℚ) < 1/2 then ⌊q⌋
        else if 1/2 < q - (⌊q⌋ : ℚ) then ⌊q⌋ + 1
        else if ⌊q⌋ % 2 = 0 then ⌊q⌋ else ⌊q⌋ + 1 := rfl

theorem pyRound_bounds (q : ℚ) (h0 : 0 ≤ q) (h10 : q ≤ 10) :
    0 ≤ pyRound q ∧ pyRound q ≤ 10 := by
  have hf0 : 0 ≤ ⌊q⌋ := Int.le_floor.mpr (by exact_mod_cast h0)
  have hf10 : ⌊q⌋ ≤ 10 := by
    have h := Int.floor_le_floor h10
    have h10' : ⌊(10 : ℚ)⌋ = 10 := by norm_num
    rw [h10'] at h
    exact h
  have hfloor : (⌊q⌋ : ℚ) ≤ q := Int.floor_le q
  rw [pyRound_eq_ite]
  split_ifs with h1 h2 h3
  · exact ⟨hf0, hf10⟩
  · have h1' : (1:ℚ)/2 ≤ q - (⌊q⌋ : ℚ) := not_lt.mp h1
    have hlt : (⌊q⌋ : ℚ) < 10 := by linarith
    have : ⌊q⌋ < 10 := by exact_mod_cast hlt
    constructor <;> omega
  · exact ⟨hf0, hf10⟩
  · have h1' : (1:ℚ)/2 ≤ q - (⌊q⌋ : ℚ) := not_lt.mp h1
    have hlt : (⌊q⌋ : ℚ) < 10 := by linarith
    have : ⌊q⌋ < 10 := by exact_mod_cast hlt
    constructor <;> omega

theorem averageScore_bounds (votes : Votes)
    (hv : ∀ s ∈ scoresOf votes, 1 ≤ s ∧ s ≤ 10) :
    0 ≤ averageScore votes ∧ averageScore votes ≤ 10 := by
  unfold averageScore
  by_cases hn : (scoresOf votes).length > 0
  · rw [if_pos hn]
    have hsum_le : (scoresOf votes).sum ≤ (scoresOf votes).length • (10 : Int) :=
      List.sum_le_card_nsmul _ _ (fun x hx => (hv x hx).2)
    have hsum_ge : ((scoresOf votes).length • (0 : Int)) ≤ (scoresOf votes).sum :=
      List.card_nsmul_le_sum _ _ (fun x hx => le_trans (by norm_num) (hv x hx).1)
    have hpos : (0:ℚ) < ((scoresOf votes).length : ℚ) := by exact_mod_cast hn
    constructor
    · apply div_nonneg _ (le_of_lt hpos)
      have hz : (0:Int) ≤ (scoresOf votes).sum := by simpa using hsum_ge
      exact_mod_cast hz
    · rw [div_le_iff₀ hpos]
      have hc : ((scoresOf votes).sum : ℚ) ≤ ((scoresOf votes).length : ℚ) * 10 := by
        rw [nsmul_eq_mul] at hsum_le
        exact_mod_cast hsum_le
      linarith
  · rw [if_neg hn]
    norm_num

theorem filledBlocks_bounds (votes : Votes)
    (hv : ∀ s ∈ scoresOf votes, 1 ≤ s ∧ s ≤ 10) :
    0 ≤ filledBlocks votes ∧ filledBlocks votes ≤ 10 := by
  have h := averageScore_bounds votes hv
  exact pyRound_bounds _ h.1 h.2

theorem progressBar_data (f : Int) (h0 : 0 ≤ f) :
    (progressBar f).data
      = List.replicate f.toNat '■' ++ List.replicate (10 - f.toNat) '□' := by
  have ht : (10 - f).toNat = 10 - f.toNat := by omega
  unfold progressBar strRepeat
  rw [String.data_append, ht]

/-! ## Claim theorems -/

/-- C1: the ledger keeps at most one vote per voter on a post. A repeated
vote by the same voter replaces that voter's entry (same key set, new
score and name), votes by distinct voters are retained unchanged, and the
reported vote count after any sequence of record-vote calls starting from
an empty mapping equals the number of distinct voter ids among the calls,
not the number of calls. -/
theorem record_vote_dedup (votes : Votes) (uid uid' : String) (v : Vote)
    (calls : List (String × Vote))
    (h1 : uid ∈ votes.map Prod.fst) (h2 : uid' ≠ uid) :
    (setVote votes uid v).map Prod.fst = votes.map Prod.fst
    ∧ lookupVote (setVote votes uid v) uid = some v
    ∧ lookupVote (setVote votes uid v) uid' = lookupVote votes uid'
    ∧ (scoresOf (applyCalls [] calls)).length = (calls.map Prod.fst).toFinset.card := by
  refine ⟨?_, lookupVote_setVote_self votes uid v h1,
    lookupVote_setVote_other votes uid uid' v h2, ?_⟩
  · rw [keys_setVote, if_pos ((any_key_iff votes uid).mpr h1)]
  · simpa [scoresOf] using count_applyCalls calls

/-- C1 witness: a second vote by u1 replaces the first, and three calls by
two distinct voters leave a count of two. -/
theorem record_vote_dedup_witness :
    lookupVote (setVote [("u1", ⟨5, "a"⟩)] "u1" ⟨7, "b"⟩) "u1" = some ⟨7, "b"⟩
    ∧ (scoresOf (applyCalls []
        [("u1", ⟨3, "x"⟩), ("u2", ⟨4, "y"⟩), ("u1", ⟨9, "z"⟩)])).length = 2 := by
  have h := record_vote_dedup [("u1", ⟨5, "a"⟩)] "u1" "u2" ⟨7, "b"⟩
      [("u1", ⟨3, "x"⟩), ("u2", ⟨4, "y"⟩), ("u1", ⟨9, "z"⟩)] (by decide) (by decide)
  exact ⟨h.2.1, h.2.2.2.trans (by decide)⟩

/-- C2 counterexample: handle_vote performs no range validation. A vote
event whose payload parses to 11 inserts score 11 into the store, so the
claimed defensive validation does not exist in the code. -/
theorem no_score_validation :
    pyInt "11" = some 11
    ∧ (handleVote [] 1 2 "u1" "Alice" none (Except.error ()) "11" "d").1
        = [(1, { chat_id := 2, title := none, votes := [("u1", ⟨11, "Alice"⟩)] })]
    ∧ ¬(∀ s ∈ scoresOf [("u1", (⟨11, "Alice"⟩ : Vote))], 1 ≤ s ∧ s ≤ 10) := by
  refine ⟨rfl, rfl, by decide⟩

/-- C2 (amended): record_vote inserts the parsed score without any range
check; the invariant that a post's votes mapping contains only scores in
[1, 10] holds only conditionally — it is preserved by an update whose
score lies in [1, 10], as every update driven by the 1-10 buttons is. -/
theorem score_range_conditional (votes : Votes) (uid : String) (v : Vote)
    (hv : ∀ s ∈ scoresOf votes, 1 ≤ s ∧ s ≤ 10)
    (hs : 1 ≤ v.score ∧ v.score ≤ 10) :
    ∀ s ∈ scoresOf (setVote votes uid v), 1 ≤ s ∧ s ≤ 10 := by
  intro s hsmem
  unfold scoresOf at hsmem
  rcases List.mem_map.mp hsmem with ⟨p, hpL, rfl⟩
  unfold setVote at hpL
  by_cases hc : votes.any (fun p => p.1 = uid) = true
  · rw [if_pos hc] at hpL
    rcases List.mem_map.mp hpL with ⟨q, hq, rfl⟩
    by_cases hqu : q.1 = uid
    · simp only [if_pos hqu]
      exact hs
    · simp only [if_neg hqu]
      exact hv _ (List.mem_map_of_mem _ hq)
  · rw [if_neg hc] at hpL
    rcases List.mem_append.mp hpL with hq | hq
    · exact hv _ (List.mem_map_of_mem _ hq)
    · have hp : p = (uid, v) := by simpa using hq
      rw [hp]
      exact hs

/-- C2 witness: an in-range vote added to an in-range store keeps the
newly stored score in range. -/
theorem score_range_conditional_witness :
    1 ≤ ((lookupVote (setVote [("u1", ⟨5, "a"⟩)] "u2" ⟨10, "b"⟩) "u2").getD ⟨0, ""⟩).score
    ∧ ((lookupVote (setVote [("u1", ⟨5, "a"⟩)] "u2" ⟨10, "b"⟩) "u2").getD ⟨0, ""⟩).score ≤ 10 := by
  have h := score_range_conditional [("u1", ⟨5, "a"⟩)] "u2" ⟨10, "b"⟩ (by decide) (by decide)
  have hm : ((lookupVote (setVote [("u1", ⟨5, "a"⟩)] "u2" ⟨10, "b"⟩) "u2").getD ⟨0, ""⟩).score
      ∈ scoresOf (setVote [("u1", ⟨5, "a"⟩)] "u2" ⟨10, "b"⟩) := by decide
  exact h _ hm

/-- C3 counterexample: the code rounds with Python's round (half to even),
not half-up. Votes of 6 and 7 give average 6.5; the code renders 6 filled
blocks while round-half-up of 6.5 is 7. -/
theorem banker_rounding_cex :
    averageScore [("1", ⟨6, "a"⟩), ("2", ⟨7, "b"⟩)] = 13/2
    ∧ filledBlocks [("1", ⟨6, "a"⟩), ("2", ⟨7, "b"⟩)] = 6
    ∧ round ((13 : ℚ)/2) = 7
    ∧ filledBlocks [("1", ⟨6, "a"⟩), ("2", ⟨7, "b"⟩)]
        ≠ round (averageScore [("1", ⟨6, "a"⟩), ("2", ⟨7, "b"⟩)]) := by
  have h1 : averageScore [("1", ⟨6, "a"⟩), ("2", ⟨7, "b"⟩)] = 13/2 := by rfl
  have h2 : filledBlocks [("1", ⟨6, "a"⟩), ("2", ⟨7, "b"⟩)] = 6 := by
    norm_num [filledBlocks, pyRound, averageScore, scoresOf]
  have h3 : round ((13 : ℚ)/2) = 7 := by norm_num [round_eq]
  refine ⟨h1, h2, h3, ?_⟩
  rw [h1, h2, h3]
  decide

/-- C3 (amended): average is sum/count for a nonempty post and 0 for an
empty one (no division by zero); the filled-block count is the average
rounded half-to-even, which lies in [0, 10] whenever all stored scores lie
in [1, 10] (so no clamping is needed or performed); the bar is the filled
glyph repeated filled-blocks times followed by the empty glyph repeated
10 - filled-blocks times; an average of exactly 7.5 rounds to 8 (8 is
even); and votes of 10, 8, 6 give average 8, an 8-filled/2-empty bar and
count 3. -/
theorem aggregate_bar_spec (votes : Votes)
    (hv : ∀ s ∈ scoresOf votes, 1 ≤ s ∧ s ≤ 10) :
    (votes = [] → averageScore votes = 0)
    ∧ (votes ≠ [] →
        averageScore votes
          = ((scoresOf votes).sum : ℚ) / ((scoresOf votes).length : ℚ))
    ∧ (0 ≤ filledBlocks votes ∧ filledBlocks votes ≤ 10)
    ∧ (progressBar (filledBlocks votes)).data
        = List.replicate (filledBlocks votes).toNat '■'
          ++ List.replicate (10 - (filledBlocks votes).toNat) '□'
    ∧ pyRound (15/2) = 8
    ∧ averageScore [("1", ⟨10, "a"⟩), ("2", ⟨8, "b"⟩), ("3", ⟨6, "c"⟩)] = 8
    ∧ filledBlocks [("1", ⟨10, "a"⟩), ("2", ⟨8, "b"⟩), ("3", ⟨6, "c"⟩)] = 8
    ∧ progressBar 8 = "■■■■■■■■□□"
    ∧ (scoresOf [("1", ⟨10, "a"⟩), ("2", ⟨8, "b"⟩), ("3", ⟨6, "c"⟩)]).length = 3 := by
  refine ⟨?_, ?_, filledBlocks_bounds votes hv,
    progressBar_data _ (filledBlocks_bounds votes hv).1, ?_, ?_, ?_, rfl, rfl⟩
  · intro h
    simp [averageScore, scoresOf, h]
  · intro h
    unfold averageScore
    rw [if_pos]
    simpa [scoresOf] using List.length_pos.mpr h
  · norm_num [pyRound]
  · norm_num [averageScore, scoresOf]
  · norm_num [filledBlocks, pyRound, averageScore, scoresOf]

theorem checkVoters_nonadmin (uid : String) (votes : Votes) :
    checkVoters false uid votes
      = if votes.any (fun p => p.1 = uid) = false then
          "🔒 You must vote first to see who else voted!"
        else if votes.isEmpty then "No one has voted yet."
        else truncateAlert ("👥 Voters (" ++ toString votes.length ++ "):" ++ "\n"
            ++ String.intercalate "\n" (votes.map (fun p => "• " ++ p.2.name))) := by
  unfold checkVoters
  by_cases hany : votes.any (fun p => p.1 = uid) = true
  · simp [hany, List.length_map]
  · simp [hany, Bool.eq_false_iff.mpr hany]

theorem checkVoters_admin (uid : String) (votes : Votes) :
    checkVoters true uid votes
      = if votes.isEmpty then "No one has voted yet."
        else truncateAlert ("👮 Admin View (" ++ toString votes.length ++ " votes):" ++ "\n"
            ++ String.intercalate "\n"
              (votes.map (fun p => "• " ++ p.2.name ++ ": " ++ toString p.2.score))) := by
  unfold checkVoters
  simp [List.length_map]

theorem truncateAlert_length (t : String) : (truncateAlert t).length ≤ 200 := by
  unfold truncateAlert
  split_ifs with h
  · have h1 : (pySlice t 190).length ≤ 190 := by
      have he : (pySlice t 190).length = (t.data.take 190).length := rfl
      rw [he]
      exact List.length_take_le 190 t.data
    have h2 := String.length_append (pySlice t 190) "..."
    have h3 : "...".length = 3 := rfl
    omega
  · omega

theorem checkVoters_length (isAdmin : Bool) (uid : String) (votes : Votes) :
    (checkVoters isAdmin uid votes).length ≤ 200 := by
  cases isAdmin
  · rw [checkVoters_nonadmin]
    split_ifs
    · decide
    · decide
    · exact truncateAlert_length _
  · rw [checkVoters_admin]
    split_ifs
    · decide
    · exact truncateAlert_length _

theorem nonadmin_no_scores (uid : String) (votes votes' : Votes)
    (h : votes.map (fun p => (p.1, p.2.name)) = votes'.map (fun p => (p.1, p.2.name))) :
    checkVoters false uid votes = checkVoters false uid votes' := by
  have hfst : votes.map Prod.fst = votes'.map Prod.fst := by
    have h2 := congrArg (List.map Prod.fst) h
    simpa [List.map_map, Function.comp] using h2
  have hlen : votes.length = votes'.length := by
    have h2 := congrArg List.length h
    simpa using h2
  have hlines : votes.map (fun p => "• " ++ p.2.name)
      = votes'.map (fun p => "• " ++ p.2.name) := by
    have h2 := congrArg (List.map (fun q : String × String => "• " ++ q.2)) h
    simpa [List.map_map, Function.comp] using h2
  have hany : votes.any (fun p => p.1 = uid) = votes'.any (fun p => p.1 = uid) := by
    have e1 : ∀ l : Votes, l.any (fun p => p.1 = uid)
        = (l.map Prod.fst).any (fun x => x = uid) := by
      intro l
      induction l with
      | nil => rfl
      | cons a as ih => simp [ih]
    rw [e1, e1, hfst]
  have hempty : votes.isEmpty = votes'.isEmpty := by
    cases votes with
    | nil =>
      cases votes' with
      | nil => rfl
      | cons b bs => simp at hlen
    | cons a as =>
      cases votes' with
      | nil => simp at hlen
      | cons b bs => rfl
  rw [checkVoters_nonadmin, checkVoters_nonadmin, hany, hempty, hlines, hlen]

/-- C4: the disclosure outcome is decided by role and prior vote. A
non-admin non-voter gets the access-denied alert; with access granted and
zero voters the empty alert is answered; a non-admin voter gets the
names-only listing built from every voter's name and no score; an admin
gets the names-and-scores listing whether or not they voted. -/
theorem list_voters_access (isAdmin : Bool) (uid : String) (votes : Votes) :
    (isAdmin = false → votes.any (fun p => p.1 = uid) = false →
      checkVoters isAdmin uid votes = "🔒 You must vote first to see who else voted!")
    ∧ ((isAdmin = true ∨ votes.any (fun p => p.1 = uid) = true) → votes = [] →
      checkVoters isAdmin uid votes = "No one has voted yet.")
    ∧ (isAdmin = false → votes.any (fun p => p.1 = uid) = true → votes ≠ [] →
      checkVoters isAdmin uid votes
        = truncateAlert ("👥 Voters (" ++ toString votes.length ++ "):" ++ "\n"
            ++ String.intercalate "\n" (votes.map (fun p => "• " ++ p.2.name))))
    ∧ (isAdmin = true → votes ≠ [] →
      checkVoters isAdmin uid votes
        = truncateAlert ("👮 Admin View (" ++ toString votes.length ++ " votes):" ++ "\n"
            ++ String.intercalate "\n"
              (votes.map (fun p => "• " ++ p.2.name ++ ": " ++ toString p.2.score)))) := by
  refine ⟨?_, ?_, ?_, ?_⟩
  · rintro rfl hn
    rw [checkVoters_nonadmin, if_pos hn]
  · rintro hcase rfl
    rcases hcase with rfl | hv
    · rw [checkVoters_admin]
      rfl
    · simp at hv
  · rintro rfl hv hne
    rw [checkVoters_nonadmin, if_neg (by simp [hv]), if_neg (by simp [hne])]
  · rintro rfl hne
    rw [checkVoters_admin, if_neg (by simp [hne])]

/-- C4 witness: all four disclosure outcomes at concrete inputs. -/
theorem list_voters_access_witness :
    checkVoters false "9" [("1", ⟨5, "Alice"⟩)]
      = "🔒 You must vote first to see who else voted!"
    ∧ checkVoters true "9" [] = "No one has voted yet."
    ∧ checkVoters false "1" [("1", ⟨5, "Alice"⟩)] = "👥 Voters (1):\n• Alice"
    ∧ checkVoters true "9" [("1", ⟨5, "Alice"⟩)]
        = "👮 Admin View (1 votes):\n• Alice: 5" := by
  have h1 := (list_voters_access false "9" [("1", ⟨5, "Alice"⟩)]).1 rfl (by decide)
  have h2 := (list_voters_access true "9" ([] : Votes)).2.1 (Or.inl rfl) rfl
  have h3 := (list_voters_access false "1" [("1", ⟨5, "Alice"⟩)]).2.2.1 rfl
    (by decide) (by decide)
  have h4 := (list_voters_access true "9" [("1", ⟨5, "Alice"⟩)]).2.2.2 rfl (by decide)
  exact ⟨h1, h2, h3.trans (by decide), h4.trans (by decide)⟩

set_option maxRecDepth 20000 in
/-- C9 counterexample: the alert truncation is a raw cut at code point 190
plus "...", which cuts a voter line mid-way. With one voter whose line is
302 characters long, the output keeps the header plus a 176-character
strict piece of the line; the only two complete-line-preserving truncated
renderings (header alone, or header plus the whole line) are both ruled
out. -/
theorem truncation_cuts_line :
    (checkVoters false "1" [("1", ⟨5, String.mk (List.replicate 300 'a')⟩)]
      = "👥 Voters (1):\n• " ++ String.mk (List.replicate 174 'a') ++ "...")
    ∧ ¬(checkVoters false "1" [("1", ⟨5, String.mk (List.replicate 300 'a')⟩)]
          = "👥 Voters (1):" ++ "...")
    ∧ ¬(checkVoters false "1" [("1", ⟨5, String.mk (List.replicate 300 'a')⟩)]
          = String.intercalate "\n"
              ["👥 Voters (1):", "• " ++ String.mk (List.replicate 300 'a')] ++ "...") := by
  refine ⟨by decide, by decide, by decide⟩

/-- C9 (amended): the rendered voter-disclosure text is always at most 200
characters, but an over-long text is truncated by a raw character cut at
position 190 with "..." appended (length exactly 193), not by dropping
whole voter lines. -/
theorem alert_truncation (isAdmin : Bool) (uid : String) (votes : Votes) (t : String) :
    (checkVoters isAdmin uid votes).length ≤ 200
    ∧ (200 < t.length →
        truncateAlert t = pySlice t 190 ++ "..." ∧ (truncateAlert t).length = 193) := by
  refine ⟨checkVoters_length isAdmin uid votes, ?_⟩
  intro h
  constructor
  · unfold truncateAlert
    rw [if_pos h]
  · unfold truncateAlert
    rw [if_pos h]
    have h1 : (pySlice t 190).length = 190 := by
      have he : (pySlice t 190).length = (t.data.take 190).length := rfl
      have hl : t.data.length = t.length := rfl
      rw [he, List.length_take]
      omega
    have h2 := String.length_append (pySlice t 190) "..."
    have h3 : "...".length = 3 := rfl
    omega

set_option maxRecDepth 20000 in
/-- C9 witness: a 201-character text truncates to exactly 193 characters,
and a concrete disclosure rendering stays within 200. -/
theorem alert_truncation_witness :
    (truncateAlert (String.mk (List.replicate 201 'a'))).length = 193
    ∧ (checkVoters false "1" []).length ≤ 200 := by
  have h := alert_truncation false "1" [] (String.mk (List.replicate 201 'a'))
  exact ⟨(h.2 (by decide)).2, h.1⟩

/-- C10: a failing membership lookup resolves to non-admin, the disclosure
then behaves exactly as for a non-admin requester, and the non-admin view
is a function of the voter ids and names alone — two vote maps that agree
on ids and names but differ arbitrarily in scores produce identical
output, so no voter's score can ever be disclosed. -/
theorem admin_lookup_failsafe (e : Unit) (uid : String) (votes votes' : Votes)
    (h : votes.map (fun p => (p.1, p.2.name)) = votes'.map (fun p => (p.1, p.2.name))) :
    resolveIsAdmin (.error e) = false
    ∧ checkVoters (resolveIsAdmin (.error e)) uid votes = checkVoters false uid votes
    ∧ checkVoters false uid votes = checkVoters false uid votes' := by
  exact ⟨rfl, rfl, nonadmin_no_scores uid votes votes' h⟩

/-- C10 witness: with the lookup failing, changing a voter's score from 5
to 9 leaves the non-admin disclosure text unchanged. -/
theorem admin_lookup_failsafe_witness :
    resolveIsAdmin (Except.error ()) = false
    ∧ checkVoters false "1" [("1", ⟨5, "Alice"⟩)]
        = checkVoters false "1" [("1", ⟨9, "Alice"⟩)] := by
  have h := admin_lookup_failsafe () "1" [("1", ⟨5, "Alice"⟩)]
    [("1", ⟨9, "Alice"⟩)] (by decide)
  exact ⟨h.1, h.2.2⟩

/-- C3 witness: the amended aggregate facts evaluated on the 10, 8, 6
scenario. -/
theorem aggregate_bar_spec_witness :
    averageScore [("1", ⟨10, "a"⟩), ("2", ⟨8, "b"⟩), ("3", ⟨6, "c"⟩)] = 8
    ∧ 0 ≤ filledBlocks [("1", ⟨10, "a"⟩), ("2", ⟨8, "b"⟩), ("3", ⟨6, "c"⟩)]
    ∧ filledBlocks [("1", ⟨10, "a"⟩), ("2", ⟨8, "b"⟩), ("3", ⟨6, "c"⟩)] ≤ 10 := by
  have h := aggregate_bar_spec [("1", ⟨10, "a"⟩), ("2", ⟨8, "b"⟩), ("3", ⟨6, "c"⟩)]
    (by decide)
  exact ⟨h.2.2.2.2.2.1, h.2.2.1.1, h.2.2.1.2⟩

theorem rankedPosts_count_pos (posts : Store) :
    ∀ e ∈ rankedPosts posts, 0 < e.count := by
  intro e he
  unfold rankedPosts at he
  rcases List.mem_map.mp he with ⟨p, hp, rfl⟩
  have hne := (List.mem_filter.mp hp).2
  simp only [decide_eq_true_eq, List.isEmpty_iff] at hne
  simp only [scoresOf, List.length_map]
  exact List.length_pos.mpr hne

/-- C5: the leaderboard drops zero-vote posts, sorts the rest descending
by (average, count) — average first, count as the tie-break — returns at
most 5 entries, answers the fixed no-rated-posts message exactly when no
post has votes, and orders A(avg 9, count 3), B(avg 9, count 5),
C(avg 9.5, count 1) as [C, B, A]. -/
theorem leaderboard_spec (posts : Store) :
    (∀ l, cmdTop posts = .top l →
      l.length ≤ 5
      ∧ List.Pairwise rankGEP l
      ∧ ∀ e ∈ l, e ∈ rankedPosts posts ∧ 0 < e.count)
    ∧ (cmdTop posts = .noPosts "No rated posts found yet!" ↔ rankedPosts posts = [])
    ∧ (∀ a b : RankedPost,
        rankGEP a b ↔ (b.avg < a.avg ∨ (a.avg = b.avg ∧ b.count ≤ a.count)))
    ∧ List.insertionSort rankGEP
        [{avg := 9, count := 3, title := "A", link := ""},
         {avg := 9, count := 5, title := "B", link := ""},
         {avg := (19:ℚ)/2, count := 1, title := "C", link := ""}]
      = [{avg := (19:ℚ)/2, count := 1, title := "C", link := ""},
         {avg := 9, count := 5, title := "B", link := ""},
         {avg := 9, count := 3, title := "A", link := ""}] := by
  refine ⟨?_, ?_, fun a b => Iff.rfl,
    by norm_num [List.insertionSort, List.orderedInsert, rankGEP]⟩
  · intro l hl
    unfold cmdTop at hl
    by_cases he : ((List.insertionSort rankGEP (rankedPosts posts)).take 5).isEmpty
    · rw [if_pos he] at hl
      simp at hl
    · rw [if_neg he] at hl
      injection hl with hl
      subst hl
      refine ⟨List.length_take_le _ _, ?_, ?_⟩
      · exact List.Pairwise.sublist (List.take_sublist 5 _)
          (List.sorted_insertionSort rankGEP _)
      · intro e hme
        have h1 : e ∈ List.insertionSort rankGEP (rankedPosts posts) :=
          List.take_subset 5 _ hme
        have h2 : e ∈ rankedPosts posts :=
          (List.perm_insertionSort rankGEP (rankedPosts posts)).mem_iff.mp h1
        exact ⟨h2, rankedPosts_count_pos posts e h2⟩
  · unfold cmdTop
    by_cases he : ((List.insertionSort rankGEP (rankedPosts posts)).take 5).isEmpty
    · rw [if_pos he]
      have h1 : (List.insertionSort rankGEP (rankedPosts posts)).take 5 = [] :=
        List.isEmpty_iff.mp he
      have h2 : List.insertionSort rankGEP (rankedPosts posts) = [] := by
        rcases List.take_eq_nil_iff.mp h1 with h | h
        · exact absurd h (by decide)
        · exact h
      have h3 := (List.perm_insertionSort rankGEP (rankedPosts posts)).length_eq
      rw [h2] at h3
      exact iff_of_true rfl (List.length_eq_zero.mp h3.symm)
    · rw [if_neg he]
      refine iff_of_false (by simp) ?_
      intro hr
      apply he
      rw [hr]
      rfl

/-- C5 witness: a store with one voted post yields a top list of length at
most 5 whose single entry carries that post's average, count, title and
link; the no-posts message appears exactly on an all-empty store. -/
theorem leaderboard_spec_witness :
    ([({avg := 9, count := 2, title := "A", link := "https://t.me/c/7/1"} : RankedPost)].length ≤ 5)
    ∧ (cmdTop [] = .noPosts "No rated posts found yet!" ↔ rankedPosts [] = []) := by
  have h1 := (leaderboard_spec
      [(1, { chat_id := 7, title := some "A",
             votes := [("u", ⟨9, "n"⟩), ("w", ⟨9, "m"⟩)] })]).1
    [{avg := 9, count := 2, title := "A", link := "https://t.me/c/7/1"}]
    (by
      norm_num [cmdTop, rankedPosts, averageScore, scoresOf,
        List.insertionSort, List.orderedInsert, pyReplace, replaceAllAux, takeMatch]
      decide)
  have h2 := (leaderboard_spec []).2.1
  exact ⟨h1.1, h2⟩

/-- C6: after a vote is recorded, the replace-text request is issued if
and only if the panel text newly rendered from the stored post differs
from the currently displayed text; identical text issues no request. -/
theorem edit_request_iff (store1 : Store) (mid : Int) (uid name : String)
    (score : Int) (displayed : String) :
    ((handleVoteNumeric store1 mid uid name score displayed).editRequest
        = some (panelText (((findPost
            (handleVoteNumeric store1 mid uid name score displayed).store mid).map
              Post.votes).getD []))
      ↔ panelText (((findPost
            (handleVoteNumeric store1 mid uid name score displayed).store mid).map
              Post.votes).getD []) ≠ displayed)
    ∧ ((handleVoteNumeric store1 mid uid name score displayed).editRequest = none
      ↔ panelText (((findPost
            (handleVoteNumeric store1 mid uid name score displayed).store mid).map
              Post.votes).getD []) = displayed) := by
  by_cases h : panelText (((findPost
      (setVoteInStore store1 mid uid ⟨score, name⟩) mid).map Post.votes).getD [])
      = displayed
  · constructor <;> simp [handleVoteNumeric, h]
  · constructor <;> simp [handleVoteNumeric, h]

/-- C7 counterexample: the scenario title is the first 30 characters plus
"...", which is 33 characters — more than the claimed 30-character bound. -/
theorem title_length_cex :
    deriveTitle (some "Hello world this is a long caption exceeding thirty chars") none
      = "Hello world this is a long cap..."
    ∧ (deriveTitle
        (some "Hello world this is a long caption exceeding thirty chars") none).length = 33
    ∧ ¬((deriveTitle
        (some "Hello world this is a long caption exceeding thirty chars") none).length ≤ 30) := by
  refine ⟨by decide, by decide, by decide⟩

/-- C7 (amended): the stored title is the post's text when it is at most
30 characters, the first 30 characters plus "..." (33 characters in all)
when longer, and "Media Post" when both text and caption are absent or
empty; the title is always at most 33 characters, not 30. -/
theorem title_truncation (text caption : Option String) :
    (∀ t, text = some t → t ≠ "" → t.length ≤ 30 → deriveTitle text caption = t)
    ∧ (∀ t, text = some t → 30 < t.length →
        deriveTitle text caption = pySlice t 30 ++ "..."
        ∧ (deriveTitle text caption).length = 33)
    ∧ ((text = none ∨ text = some "") → (caption = none ∨ caption = some "") →
        deriveTitle text caption = "Media Post")
    ∧ (deriveTitle text caption).length ≤ 33 := by
  have hplen : ∀ s : String, (pySlice s 30).length = min 30 s.length := by
    intro s
    have he : (pySlice s 30).length = (s.data.take 30).length := rfl
    rw [he, List.length_take]
    rfl
  have hpt : ∀ t : String, t ≠ "" → postTextOf (some t) caption = t := by
    intro t hne
    unfold postTextOf orStr
    simp [hne]
  refine ⟨?_, ?_, ?_, ?_⟩
  · rintro t rfl hne hlen
    unfold deriveTitle
    rw [hpt t hne]
    unfold shortTitle
    rw [if_neg (by omega)]
  · rintro t rfl hlen
    have hne : t ≠ "" := by
      intro h0
      rw [h0] at hlen
      simp [String.length] at hlen
    have hd : deriveTitle (some t) caption = pySlice t 30 ++ "..." := by
      unfold deriveTitle
      rw [hpt t hne]
      unfold shortTitle
      rw [if_pos (by omega)]
    refine ⟨hd, ?_⟩
    rw [hd, String.length_append, hplen]
    have h3 : "...".length = 3 := rfl
    omega
  · intro h1 h2
    have hcap : orStr caption "Media Post" = "Media Post" := by
      rcases h2 with rfl | rfl
      · rfl
      · rfl
    have hpt3 : postTextOf text caption = "Media Post" := by
      rcases h1 with rfl | rfl
      · exact hcap
      · exact hcap
    unfold deriveTitle
    rw [hpt3]
    rfl
  · unfold deriveTitle shortTitle
    split_ifs with h
    · rw [String.length_append, hplen]
      have h3 : "...".length = 3 := rfl
      omega
    · omega

/-- C7 witness: a short text kept verbatim, a media-only post's
placeholder, and the long scenario's 33-character title. -/
theorem title_truncation_witness :
    deriveTitle (some "Hello world") none = "Hello world"
    ∧ deriveTitle none none = "Media Post"
    ∧ (deriveTitle
        (some "Hello world this is a long caption exceeding thirty chars") none).length = 33 := by
  have h1 := (title_truncation (some "Hello world") none).1 "Hello world" rfl
    (by decide) (by decide)
  have h2 := (title_truncation none none).2.2.1 (Or.inl rfl) (Or.inl rfl)
  have h3 := ((title_truncation
      (some "Hello world this is a long caption exceeding thirty chars") none).2.1
    "Hello world this is a long caption exceeding thirty chars" rfl (by decide)).2
  exact ⟨h1, h2, h3⟩

/-- C8 counterexample: the record synthesized for an unknown post carries
no title field at all, so its title is not "Unknown Post"; that string
only appears as a read-time default. -/
theorem synthesized_title_cex :
    fetchOrCreate [] 1 2 = [(1, synthesizedPost 2)]
    ∧ (synthesizedPost 2).title = none
    ∧ (synthesizedPost 2).title ≠ some "Unknown Post" := by
  refine ⟨rfl, rfl, by decide⟩

/-- C8 (amended): a vote for an unknown post synthesizes and persists,
before the vote is applied, a record with an empty vote map and the chat
id from the event context but no title field; the vote update then runs
against the store already containing that record, and "Unknown Post" is
only the default substituted when reading a titleless record. -/
theorem synthesize_on_vote (store : Store) (mid chatId : Int) (uid name : String)
    (score : Int) (displayed : String)
    (h : findPost store mid = none) :
    fetchOrCreate store mid chatId = store ++ [(mid, synthesizedPost chatId)]
    ∧ (synthesizedPost chatId).votes = []
    ∧ (synthesizedPost chatId).chat_id = chatId
    ∧ (synthesizedPost chatId).title = none
    ∧ (synthesizedPost chatId).title.getD "Unknown Post" = "Unknown Post"
    ∧ (handleVoteNumeric (fetchOrCreate store mid chatId) mid uid name score displayed).store
        = setVoteInStore (store ++ [(mid, synthesizedPost chatId)]) mid uid ⟨score, name⟩ := by
  have h1 : fetchOrCreate store mid chatId = store ++ [(mid, synthesizedPost chatId)] := by
    unfold fetchOrCreate
    rw [h]
  refine ⟨h1, rfl, rfl, rfl, rfl, ?_⟩
  rw [h1]
  rfl

/-- C8 witness: the synthesis evaluated on an empty store. -/
theorem synthesize_on_vote_witness :
    fetchOrCreate [] 5 7 = [(5, synthesizedPost 7)]
    ∧ (synthesizedPost 7).title.getD "Unknown Post" = "Unknown Post" := by
  have h := synthesize_on_vote [] 5 7 "u" "n" 3 "d" rfl
  exact ⟨h.1, h.2.2.2.2.1⟩

end RatingBot
